import Mathlib

/-!
Shallow embedding of the navigation core of the resuscitation protocol
navigator (card graph, decision helpers, anchor engine, wheel physics,
advance/rewind, automation API), translated from the TypeScript sources
under `src/app/src` and `src/unnamed`, together with theorems settling
the specification claims about it.

Modelling conventions:
* JavaScript numbers are modelled as rationals; `JSNum := Option ℚ`
  where `none` stands for a non-finite value (NaN or ±Infinity).
* A nullable string (`string | null | undefined`) is `Option String`;
  JavaScript truthiness of such a value is `truthy` below (the empty
  string is falsy).
* `DECK` (a `Record<string, Card>`) is an association list
  `List (String × Card)`; `rebuildDeckMap` keys every entry by
  `card.id`, so lookups in the running program always return a card
  whose `id` equals the key.
* `card.transitions` is `Option Transition`; a transitions object with
  a falsy or unknown `type` behaves exactly like a missing one in every
  embedded function (`advance` returns `false` without mutating, the
  path walkers stop after the current card), so both are `none`.
* DOM access, rendering to HTML, haptics and the 1-second interval are
  side effects outside the navigation state; `render` is modelled by
  the state fields it writes (wheel mode, anchors, knob angles), and
  `startTimer`'s interval handle by the boolean `timerInterval`.
-/

namespace ResusApp

/-- A JavaScript number: `none` models a non-finite value (NaN, ±∞). -/
abbrev JSNum := Option ℚ

/-- JavaScript truthiness of a nullable string: `null`/`undefined` and
the empty string are falsy. -/
def truthy : Option String → Bool
  | none => false
  | some s => !s.isEmpty

/-- `a || d` for a nullable string `a` and a (truthy) default `d`. -/
def jsOr (a : Option String) (d : String) : String :=
  match a with
  | some s => if s.isEmpty then d else s
  | none => d

/-- JavaScript array indexing `l[i]` with a possibly negative index. -/
def listGetJS {α : Type} (l : List α) (i : ℤ) : Option α :=
  if 0 ≤ i then l.get? i.toNat else none

/-- One option of a `split` transition (from `types.ts`;
`target_id` is nullable to cover malformed authoring data). -/
structure TransitionOption where
  label : Option String
  target_id : Option String
deriving Repr, DecidableEq, Inhabited

/-- The transitions tagged union of `types.ts`. -/
inductive Transition where
  | linear (next_id : Option String)
  | split (options : List TransitionOption)
  | self_loop (next_id : Option String)
deriving Repr, DecidableEq

/-- A card of the protocol graph (the fields of `types.ts` that the
navigation engine reads; `phase` is `wheel_config.phase`). -/
structure Card where
  id : String
  type : String
  phase : Option String
  status : Option String
  transitions : Option Transition
deriving Repr, DecidableEq

/-- One entry of the append-only decision audit log. -/
structure DecisionTrailEntry where
  card_id : String
  option_index : ℤ
  option_label : String
  target_id : Option String
  interaction : String
  source : String
  timestamp : String
deriving Repr, DecidableEq

/-- A `(card id, angle)` anchor. -/
structure Anchor where
  id : String
  angle : ℚ
deriving Repr, DecidableEq

/-- The wheel FSM modes. -/
inductive WheelMode where
  | COVER | LINEAR | DECISION | LOOP | TERMINAL
deriving Repr, DecidableEq

/-- The wheel sub-state of the app state. -/
structure WheelState where
  mode : WheelMode
  angle : ℚ
  visualAngle : Option ℚ
  dragOrigin : Option ℚ
  navConsumed : Bool
deriving Repr, DecidableEq

/-- The process-wide mutable navigation state (`state` in `store.ts`). -/
structure AppState where
  currentId : String
  history : List String
  decisionIndex : ℤ
  decisionRecords : List (String × ℤ)
  decisionTrail : List DecisionTrailEntry
  decisionTapped : Bool
  carouselIndex : ℤ
  timerSeconds : ℕ
  timerRunning : Bool
  timerInterval : Bool
  checklistState : List (String × Bool)
  anchors : List Anchor
  anchorIndex : ℤ
  wheel : WheelState
deriving Repr, DecidableEq

/-- Arc direction. -/
inductive Direction where
  | anticlockwise | clockwise
deriving Repr, DecidableEq

/-- A normalized wheel arc (output of `normalizeWheelArc`). -/
structure WheelArc where
  start_degrees : ℚ
  end_degrees : ℚ
  direction : Direction
  phase_spread_degrees : ℚ
deriving Repr, DecidableEq

/-- The raw (unvalidated) `algorithm_meta.wheel_arc` object. -/
structure RawWheelArc where
  start_degrees : JSNum
  end_degrees : JSNum
  direction : Option String
  phase_spread_degrees : JSNum
deriving Repr, DecidableEq

/-- The slice of `algorithm_meta` the navigation engine reads. -/
structure AlgorithmMeta where
  wheel_arc : Option RawWheelArc
  auto_start_on_card : Option String
deriving Repr, DecidableEq

/-- The read-only environment of the navigation functions: the `DECK`
map, `RUNTIME_ALGORITHM.deck` and `RUNTIME_ALGORITHM.algorithm_meta`. -/
structure Env where
  deckMap : List (String × Card)
  runtimeDeck : List Card
  meta : AlgorithmMeta
deriving Repr, DecidableEq

/-- `DECK[id]` lookup. -/
def deckGet (env : Env) (id : String) : Option Card :=
  env.deckMap.lookup id

/-- Map update `state.decisionRecords[k] = v` (JS object assignment:
an existing key keeps its position, a new key is appended). -/
def recInsert (m : List (String × ℤ)) (k : String) (v : ℤ) :
    List (String × ℤ) :=
  if (m.lookup k).isSome then
    m.map (fun kv => if kv.1 = k then (k, v) else kv)
  else
    m ++ [(k, v)]

/-! ### Decision helpers (`state/decisions.ts`) -/

/-- `isSplitDecisionCard`: the card has a `split` transition with at
least one option. -/
def isSplitDecisionCard : Option Card → Bool
  | some card =>
    match card.transitions with
    | some (.split options) => !options.isEmpty
    | _ => false
  | none => false

/-- `normalizeDecisionIndexForCard`: clamp the requested index into
`[0, optionCount-1]`; 0 for non-split cards or malformed input
(non-finite numbers are floored to 0 first). -/
def normalizeDecisionIndexForCard (card : Option Card)
    (requestedIndex : JSNum) : ℤ :=
  match card with
  | none => 0
  | some c =>
    match c.transitions with
    | some (.split options) =>
      if options.isEmpty then 0
      else
        let value : ℤ :=
          match requestedIndex with
          | some q => ⌊q⌋
          | none => 0
        max 0 (min ((options.length : ℤ) - 1) value)
    | _ => 0

/-- Number of options of a split card (0 otherwise). -/
def splitOptionCount : Option Card → ℕ
  | some card =>
    match card.transitions with
    | some (.split options) => options.length
    | _ => 0
  | none => 0

/-- `rememberedDecisionIndexForCard`: a previously committed choice for
this card id if present in `decisionRecords`, else the live
`decisionIndex`, normalized. -/
def rememberedDecisionIndexForCard (s : AppState) (card : Card) : ℤ :=
  if !(isSplitDecisionCard (some card)) then 0
  else
    let remembered : ℤ :=
      match s.decisionRecords.lookup card.id with
      | some v => v
      | none => s.decisionIndex
    normalizeDecisionIndexForCard (some card) (some (remembered : ℚ))

/-! ### Angle math (`algorithms/loader.ts`, `wheel/physics.ts`) -/

/-- JavaScript `n % 360` (remainder truncated toward zero). -/
def jsRem360 (n : ℚ) : ℚ :=
  n - 360 * ((if 0 ≤ n then ⌊n / 360⌋ else -⌊(-n) / 360⌋ : ℤ) : ℚ)

/-- `normalizeDegrees`: wrap a (finite) number into `[0, 360)`. -/
def normalizeDegrees (deg : ℚ) : ℚ :=
  let m := jsRem360 deg
  if m < 0 then m + 360 else m

/-- `normalizeDegrees` on a raw JS number (`!Number.isFinite(n)` → 0). -/
def normalizeDegreesJS : JSNum → ℚ
  | some q => normalizeDegrees q
  | none => 0

/-- The fallback `DEFAULT_WHEEL_ARC` of `loader.ts`. -/
def DEFAULT_WHEEL_ARC : WheelArc :=
  { start_degrees := 330, end_degrees := 30,
    direction := .anticlockwise, phase_spread_degrees := 4 }

/-- `normalizeWheelArc`: defaults plus normalization of the raw
`wheel_arc` config. -/
def normalizeWheelArc (rawMeta : Option AlgorithmMeta) : WheelArc :=
  let raw : RawWheelArc :=
    match rawMeta with
    | some m =>
      match m.wheel_arc with
      | some a => a
      | none =>
        { start_degrees := none, end_degrees := none,
          direction := none, phase_spread_degrees := none }
    | none =>
      { start_degrees := none, end_degrees := none,
        direction := none, phase_spread_degrees := none }
  let direction : Direction :=
    if (jsOr raw.direction "anticlockwise").toLower = "anticlockwise"
    then .anticlockwise else .clockwise
  let start : ℚ :=
    match raw.start_degrees with
    | some q => normalizeDegrees q
    | none => DEFAULT_WHEEL_ARC.start_degrees
  let stop : ℚ :=
    match raw.end_degrees with
    | some q => normalizeDegrees q
    | none => DEFAULT_WHEEL_ARC.end_degrees
  let spread : ℚ :=
    match raw.phase_spread_degrees with
    | some q => max 0 q
    | none => DEFAULT_WHEEL_ARC.phase_spread_degrees
  { start_degrees := start, end_degrees := stop,
    direction := direction, phase_spread_degrees := spread }

/-- `getCurrentWheelArc` of `anchors.ts` / `physics.ts`. -/
def getCurrentWheelArc (env : Env) : WheelArc :=
  normalizeWheelArc (some env.meta)

/-- `angleOnArc`: interpolate along the arc by the clamped fraction. -/
def angleOnArc (arc : WheelArc) (r : ℚ) : ℚ :=
  let t := max 0 (min 1 r)
  let cwDistance := jsRem360 (arc.end_degrees - arc.start_degrees + 360)
  let ccwDistance := jsRem360 (arc.start_degrees - arc.end_degrees + 360)
  match arc.direction with
  | .anticlockwise => normalizeDegrees (arc.start_degrees - ccwDistance * t)
  | .clockwise => normalizeDegrees (arc.start_degrees + cwDistance * t)

/-- The visual-angle update of `setKnobPosition` (`wheel/physics.ts`):
add the shortest signed delta between the normalized target and the
normalized last visual angle to the running (unwrapped) visual angle. -/
def setKnobVisual (lastVisual deg : ℚ) : ℚ :=
  let targetDeg := normalizeDegrees deg
  let normalizedLast := normalizeDegrees lastVisual
  let diff0 := targetDeg - normalizedLast
  let diff1 := if 180 < diff0 then diff0 - 360 else diff0
  let diff := if diff1 < -180 then diff1 + 360 else diff1
  lastVisual + diff

/-- `setKnobPosition(deg)` as a state update (the knob element is
present once the app is initialized; an `undefined` visual angle is
first seeded with `deg`, exactly as in the source). -/
def setKnobPositionState (s : AppState) (deg : ℚ) : AppState :=
  let lastVisual : ℚ :=
    match s.wheel.visualAngle with
    | some v => v
    | none => deg
  { s with wheel := { s.wheel with
      visualAngle := some (setKnobVisual lastVisual deg) } }

/-! ### Wheel FSM (`wheel/fsm.ts`) -/

/-- `computeWheelMode`: pure classification of the current card. -/
def computeWheelMode : Option Card → WheelMode
  | none => .LINEAR
  | some card =>
    if card.type = "cover" then .COVER
    else if card.type = "decision" then .DECISION
    else if card.type = "terminal" then .TERMINAL
    else if card.phase = some "cpr_loop" ∨ card.phase = some "loop" then .LOOP
    else .LINEAR

/-! ### Anchor engine (`navigation/anchors.ts`) -/

/-- `currentAlgorithmStartId`: id of the first runtime deck card. -/
def currentAlgorithmStartId (env : Env) : Option String :=
  match env.runtimeDeck with
  | [] => none
  | c :: _ => some c.id

/-- Next card id in `countPathLength`'s walk (split transitions always
take option 0 here; a self-loop onto itself stops the walk). -/
def countStep (card : Card) : Option String :=
  match card.transitions with
  | none => none
  | some (.linear next_id) => next_id
  | some (.split options) =>
    match options.head? with
    | some o => o.target_id
    | none => none
  | some (.self_loop next_id) =>
    if next_id = some card.id then none else next_id

/-- The `while` loop of `countPathLength`, with explicit fuel. Each
iteration visits a fresh `DECK` key, so `deckMap.length + 1` fuel is
never exhausted at the top-level call. -/
def countPathLengthAux (env : Env) :
    ℕ → Option String → List String → ℕ → ℕ
  | 0, _, _, count => count
  | _ + 1, none, _, count => count
  | fuel + 1, some cardId, visited, count =>
    if cardId.isEmpty then count
    else
      match deckGet env cardId with
      | none => count
      | some card =>
        if cardId ∈ visited then count
        else
          countPathLengthAux env fuel (countStep card)
            (cardId :: visited) (count + 1)

/-- `countPathLength(startId, alreadyVisited)`. -/
def countPathLength (env : Env) (startId : String)
    (alreadyVisited : List String) : ℕ :=
  countPathLengthAux env (env.deckMap.length + 1) (some startId)
    alreadyVisited 0

/-- Whether an option passes the eligibility screens of
`longestBranchTarget` (truthy target id, target in the deck, target
not already visited). -/
def eligibleOpt (env : Env) (visited : List String)
    (opt : TransitionOption) : Bool :=
  match opt.target_id with
  | none => false
  | some t => !t.isEmpty && (deckGet env t).isSome && !(visited.contains t)

/-- One iteration of `longestBranchTarget`'s loop: keep the first
option whose counted branch is strictly longer than the best so far
(`bestTarget`/`bestLength` are the accumulator, seeded `(null, -1)`). -/
def longestBranchStep (env : Env) (visited : List String)
    (acc : Option String × ℤ) (opt : TransitionOption) :
    Option String × ℤ :=
  if eligibleOpt env visited opt then
    match opt.target_id with
    | some t =>
      let len : ℤ := (countPathLength env t visited : ℤ)
      if acc.2 < len then (some t, len) else acc
    | none => acc
  else acc

/-- The loop of `longestBranchTarget` over the options. -/
def longestBranchFold (env : Env) (visited : List String)
    (options : List TransitionOption) : Option String × ℤ :=
  options.foldl (longestBranchStep env visited) (none, -1)

/-- `longestBranchTarget(card, visited)`. -/
def longestBranchTarget (env : Env) (card : Card)
    (visited : List String) : Option String :=
  match card.transitions with
  | some (.split options) =>
    match (longestBranchFold env visited options).1 with
    | some t => some t
    | none =>
      match options.head? with
      | some o => o.target_id
      | none => none
  | _ => none

/-- Next card id in `computeForwardPath`'s walk: linear directly, a
recorded split by its record, an unrecorded split by
`longestBranchTarget`, a self-loop unless it points to itself. -/
def forwardStep (env : Env) (s : AppState) (card : Card)
    (visited : List String) : Option String :=
  match card.transitions with
  | none => none
  | some (.linear next_id) => next_id
  | some (.split options) =>
    match s.decisionRecords.lookup card.id with
    | some idx =>
      match listGetJS options idx with
      | some opt => opt.target_id
      | none => none
    | none => longestBranchTarget env card visited
  | some (.self_loop next_id) =>
    if next_id = some card.id then none else next_id

/-- The `while` loop of `computeForwardPath`, with explicit fuel. -/
def computeForwardPathAux (env : Env) (s : AppState) :
    ℕ → Option String → List String → List String → List String
  | 0, _, _, path => path
  | _ + 1, none, _, path => path
  | fuel + 1, some cardId, visited, path =>
    if cardId.isEmpty then path
    else
      match deckGet env cardId with
      | none => path
      | some card =>
        if cardId ∈ visited then path
        else
          computeForwardPathAux env s fuel
            (forwardStep env s card (cardId :: visited))
            (cardId :: visited) (path ++ [cardId])

/-- `computeForwardPath()`: the walk from the algorithm's start card. -/
def computeForwardPath (env : Env) (s : AppState) : List String :=
  computeForwardPathAux env s (env.deckMap.length + 1)
    (currentAlgorithmStartId env) [] []

/-- `computeAnchors()`: distribute the forward path evenly on the arc. -/
def computeAnchors (env : Env) (s : AppState) : List Anchor :=
  let path := computeForwardPath env s
  let arc := getCurrentWheelArc env
  if path.length = 0 then []
  else if path.length = 1 then
    [{ id := path.headI, angle := arc.start_degrees }]
  else
    path.enum.map (fun p =>
      { id := p.2,
        angle := angleOnArc arc ((p.1 : ℚ) / ((path.length : ℚ) - 1)) })

/-- `findAnchorIndex` (JS `findIndex`, -1 when absent). -/
def findAnchorIndex (anchors : List Anchor) (cardId : String) : ℤ :=
  match anchors.findIdx? (fun a => a.id = cardId) with
  | some i => (i : ℤ)
  | none => -1

/-- `currentAnchorAngle()`. -/
def currentAnchorAngle (env : Env) (s : AppState) : ℚ :=
  if 0 ≤ s.anchorIndex ∧ s.anchorIndex < (s.anchors.length : ℤ) then
    match listGetJS s.anchors s.anchorIndex with
    | some a => a.angle
    | none => (getCurrentWheelArc env).start_degrees
  else (getCurrentWheelArc env).start_degrees

/-- `syncAnchors()`: recompute the anchors and locate the current card
in them, falling back to the last anchor index. -/
def syncAnchors (env : Env) (s : AppState) : AppState :=
  let anchors := computeAnchors env s
  let idx := findAnchorIndex anchors s.currentId
  { s with
    anchors := anchors,
    anchorIndex :=
      if 0 ≤ idx then idx else max 0 ((anchors.length : ℤ) - 1) }

/-! ### Timer (`ui/timer.ts`) -/

/-- `startTimer()`: set the running flag and install the interval. -/
def startTimer (s : AppState) : AppState :=
  { s with timerRunning := true, timerInterval := true }

/-- `resetTimerState()`: clear the interval, stop and zero the clock. -/
def resetTimerState (s : AppState) : AppState :=
  { s with timerInterval := false, timerRunning := false,
           timerSeconds := 0 }

/-! ### Render orchestration (`cards/renderer.ts`), state part -/

/-- `render()` restricted to the state it writes: derive the wheel
mode, sync anchors, move the knob to the current anchor angle. -/
def render (env : Env) (s : AppState) : AppState :=
  match deckGet env s.currentId with
  | none => s
  | some card =>
    let s1 := { s with wheel := { s.wheel with
                  mode := computeWheelMode (some card) } }
    let s2 := syncAnchors env s1
    let ang := currentAnchorAngle env s2
    let s3 := { s2 with wheel := { s2.wheel with angle := ang } }
    setKnobPositionState s3 ang

/-! ### Navigation engine (`navigation/advance.ts`) -/

/-- The options record of `advance` (`source` defaults to `'ui'`,
`splitConfirmed` to `false`). -/
structure AdvanceOptions where
  source : Option String
  splitConfirmed : Bool
deriving Repr, DecidableEq

/-- `advance(options)`: commit one graph transition. Returns whether a
transition actually happened together with the updated state. `now` is
the wall-clock ISO timestamp read inside the split branch. -/
def advance (env : Env) (options : AdvanceOptions) (now : String)
    (s : AppState) : Bool × AppState :=
  let source := jsOr options.source "ui"
  let splitConfirmed := options.splitConfirmed || source == "automation"
  match deckGet env s.currentId with
  | none => (false, s)
  | some card =>
    if card.status = some "complete" then (false, s)
    else
      match card.transitions with
      | none => (false, s)
      | some t =>
        -- `step = none` models the early `return false` of the split
        -- branch; otherwise it carries the resolved next id and the
        -- state after the split branch's record/trail writes.
        let step : Option (Option String × AppState) :=
          match t with
          | .linear next_id => some (next_id, s)
          | .split opts =>
            if opts.isEmpty then none
            else if !splitConfirmed then none
            else
              let pickedIndex :=
                normalizeDecisionIndexForCard (some card)
                  (some (s.decisionIndex : ℚ))
              let picked := listGetJS opts pickedIndex
              let nextId : Option String :=
                match picked with
                | some p => p.target_id
                | none => none
              let fallbackLabel := "Option " ++ toString (pickedIndex + 1)
              let entry : DecisionTrailEntry :=
                { card_id := card.id
                  option_index := pickedIndex
                  option_label :=
                    match picked with
                    | some p =>
                      match p.label with
                      | some lbl => if lbl.isEmpty then fallbackLabel else lbl
                      | none => fallbackLabel
                    | none => fallbackLabel
                  target_id := if truthy nextId then nextId else none
                  interaction := "forward-decision-confirm"
                  source := source
                  timestamp := now }
              some (nextId,
                { s with
                  decisionRecords :=
                    recInsert s.decisionRecords card.id pickedIndex
                  decisionTrail := s.decisionTrail ++ [entry] })
          | .self_loop next_id =>
            some (if truthy next_id then next_id else some card.id, s)
        match step with
        | none => (false, s)
        | some (resolved, s1) =>
          match resolved with
          | none => (false, s1)
          | some nextId =>
            if nextId.isEmpty then (false, s1)
            else
              match deckGet env nextId with
              | none => (false, s1)
              | some nextCard =>
                let s2 := { s1 with
                  history :=
                    if nextId ≠ s1.currentId
                    then s1.history ++ [s1.currentId]
                    else s1.history
                  currentId := nextId }
                let s3 := { s2 with
                  decisionIndex :=
                    if isSplitDecisionCard (some nextCard)
                    then rememberedDecisionIndexForCard s2 nextCard
                    else 0
                  decisionTapped := false
                  carouselIndex := 0 }
                let autoStartCard := env.meta.auto_start_on_card
                let shouldStartTimer :=
                  !truthy autoStartCard || autoStartCard == some nextId
                let s4 :=
                  if !s3.timerRunning && shouldStartTimer
                  then startTimer s3 else s3
                (true, render env s4)

/-- `rewind()`: pop the last history entry back into `currentId`. -/
def rewind (env : Env) (s : AppState) : Bool × AppState :=
  match s.history.getLast? with
  | none => (false, s)
  | some prevId =>
    let s1 := { s with history := s.history.dropLast, currentId := prevId }
    let prevCard := deckGet env prevId
    let s2 :=
      if isSplitDecisionCard prevCard then
        match prevCard with
        | some pc =>
          { s1 with
            decisionIndex := rememberedDecisionIndexForCard s1 pc
            decisionTapped := (s1.decisionRecords.lookup prevId).isSome }
        | none => s1
      else
        { s1 with decisionIndex := 0, decisionTapped := false }
    let s3 := { s2 with carouselIndex := 0 }
    (true, render env s3)

/-! ### Automation API (`automation.ts`), state-relevant parts -/

/-- The `{ok, error}` part of an automation call's result (the
`snapshot` field is a pure function of the returned state). -/
structure AutomationResult where
  ok : Bool
  error : Option String
deriving Repr, DecidableEq

/-- `selectDecisionOption(index)`: clamp-and-store the highlighted
option of the current split card, or report an error on non-split
cards. -/
def selectDecisionOption (env : Env) (index : JSNum) (s : AppState) :
    AutomationResult × AppState :=
  match deckGet env s.currentId with
  | some card =>
    match card.transitions with
    | some (.split _) =>
      let s1 := { s with
        decisionIndex := normalizeDecisionIndexForCard (some card) index
        decisionTapped := true }
      ({ ok := true, error := none }, render env s1)
    | _ =>
      ({ ok := false,
         error := some "Current card is not a split decision card" }, s)
  | none =>
    ({ ok := false,
       error := some "Current card is not a split decision card" }, s)

/-- `setCurrentCardForAutomation(cardId)`: direct jump bypassing graph
edges — clears history, re-derives mode, resets the timer. -/
def setCurrentCardForAutomation (env : Env) (cardId : String)
    (s : AppState) : AutomationResult × AppState :=
  match deckGet env cardId with
  | none =>
    ({ ok := false, error := some ("Unknown card id: " ++ cardId) }, s)
  | some card =>
    let s1 := { s with currentId := card.id, history := [] }
    let s2 := { s1 with
      decisionIndex :=
        if isSplitDecisionCard (some card)
        then rememberedDecisionIndexForCard s1 card
        else 0 }
    let s3 := { s2 with
      decisionTapped := false
      carouselIndex := 0
      wheel := { s2.wheel with
        mode := computeWheelMode (some card)
        dragOrigin := none
        navConsumed := false } }
    let s4 := resetTimerState s3
    ({ ok := true, error := none }, render env s4)

/-- The automation `gotoCard(cardId)` call. -/
def gotoCard (env : Env) (cardId : String) (s : AppState) :
    AutomationResult × AppState :=
  setCurrentCardForAutomation env cardId s

/-- The automation `reset()` call: jump to the algorithm's start card
(falling back to the current id when the runtime deck is empty). -/
def automationReset (env : Env) (s : AppState) :
    AutomationResult × AppState :=
  setCurrentCardForAutomation env
    (jsOr (currentAlgorithmStartId env) s.currentId) s

/-! ### The claim's version of branch counting (for claim C4)

The claim describes the branch-length counting as "walking with the
same rules and treating any not-yet-recorded split as picking branch
0", i.e. a counting that still honors `decisionRecords` at recorded
splits. The source's `countPathLength` instead takes branch 0 at
*every* split. The following definitions follow the claim's words, to
be compared with `countPathLength` above. -/

/-- Next id under the claim's counting rules: linear directly, a
recorded split by its record, an unrecorded split by branch 0, a
self-loop unless it points to itself. -/
def claimedCountStep (s : AppState) (card : Card) : Option String :=
  match card.transitions with
  | none => none
  | some (.linear next_id) => next_id
  | some (.split options) =>
    match s.decisionRecords.lookup card.id with
    | some idx =>
      match listGetJS options idx with
      | some opt => opt.target_id
      | none => none
    | none =>
      match options.head? with
      | some o => o.target_id
      | none => none
  | some (.self_loop next_id) =>
    if next_id = some card.id then none else next_id

/-- The claim's counting loop (same shape as `countPathLengthAux`). -/
def claimedCountPathLengthAux (env : Env) (s : AppState) :
    ℕ → Option String → List String → ℕ → ℕ
  | 0, _, _, count => count
  | _ + 1, none, _, count => count
  | fuel + 1, some cardId, visited, count =>
    if cardId.isEmpty then count
    else
      match deckGet env cardId with
      | none => count
      | some card =>
        if cardId ∈ visited then count
        else
          claimedCountPathLengthAux env s fuel (claimedCountStep s card)
            (cardId :: visited) (count + 1)

/-- Reachable branch length as the claim describes it. -/
def claimedCountPathLength (env : Env) (s : AppState) (startId : String)
    (alreadyVisited : List String) : ℕ :=
  claimedCountPathLengthAux env s (env.deckMap.length + 1) (some startId)
    alreadyVisited 0

/-! ### Knob trace

The sequence of visual angles produced by a sequence of
`setKnobPosition` calls, starting from a given initial visual angle. -/

/-- Visual angles after each `setKnobPosition` call (the initial
visual angle first). -/
def knobTrace (init : ℚ) (targets : List ℚ) : List ℚ :=
  targets.scanl setKnobVisual init

/-! ### Concrete fixtures

Small decks and states used to instantiate the theorems below and to
exhibit counterexamples. `initialState` mirrors the initial `state`
record of `store.ts`. -/

/-- The initial wheel sub-state of `store.ts`. -/
def initialWheel : WheelState :=
  { mode := .COVER, angle := 330, visualAngle := some 330,
    dragOrigin := none, navConsumed := false }

/-- The initial `state` record of `store.ts`. -/
def initialState : AppState :=
  { currentId := "CARD_00_START", history := [], decisionIndex := 0,
    decisionRecords := [], decisionTrail := [], decisionTapped := false,
    carouselIndex := 0, timerSeconds := 0, timerRunning := false,
    timerInterval := false, checklistState := [], anchors := [],
    anchorIndex := 0, wheel := initialWheel }

/-- An algorithm meta with no wheel-arc and no auto-start config. -/
def emptyMeta : AlgorithmMeta :=
  { wheel_arc := none, auto_start_on_card := none }

/-- A card fixture with only id, type and transitions of interest. -/
def mkCard (id ty : String) (tr : Option Transition) : Card :=
  { id := id, type := ty, phase := none, status := none,
    transitions := tr }

/-- A split card whose single option targets a card that is absent
from the deck (a confirmed advance on it fails the deck check *after*
recording the decision). -/
def cex2Card : Card :=
  mkCard "S" "decision"
    (some (.split [{ label := some "YES", target_id := some "MISSING" }]))

/-- Deck for the traversal-error counterexample. -/
def cex2Env : Env :=
  { deckMap := [("S", cex2Card)], runtimeDeck := [cex2Card],
    meta := emptyMeta }

/-- State sitting on the malformed split card. -/
def cex2State : AppState := { initialState with currentId := "S" }

/-- A pre-confirmed advance call (as a drag-commit on a selected
option would issue). -/
def cex2Opts : AdvanceOptions := { source := none, splitConfirmed := true }

/-- Options of the demo split: branch `A1` (length 2) and branch `B1`
(length 5). -/
def demo4Options : List TransitionOption :=
  [{ label := some "A", target_id := some "A1" },
   { label := some "B", target_id := some "B1" }]

/-- The demo split card at the head of the demo deck. -/
def demo4SplitCard : Card :=
  mkCard "S" "decision" (some (.split demo4Options))

/-- Demo deck for longest-branch selection: start split `S` with an
option-0 branch `A1 → A2` (length 2) and an option-1 branch
`B1 → … → B5` (length 5). -/
def demo4Deck : List Card :=
  [ demo4SplitCard,
    mkCard "A1" "standard" (some (.linear (some "A2"))),
    mkCard "A2" "standard" none,
    mkCard "B1" "standard" (some (.linear (some "B2"))),
    mkCard "B2" "standard" (some (.linear (some "B3"))),
    mkCard "B3" "standard" (some (.linear (some "B4"))),
    mkCard "B4" "standard" (some (.linear (some "B5"))),
    mkCard "B5" "standard" none ]

/-- Environment for the longest-branch demo. -/
def demo4Env : Env :=
  { deckMap := demo4Deck.map (fun c => (c.id, c)),
    runtimeDeck := demo4Deck, meta := emptyMeta }

/-- Deck refuting the claim's description of branch counting: outer
split `O` (unrecorded) with options `P` and `Q`; `P` leads to split
`S` which *is* recorded as option 1 (the long branch `T1 → U1 → U2`),
while `S`'s option 0 is the dead end `T0`; `Q` heads a linear chain of
length 4. Counting that honors the record gives the `P` branch length
5 > 4, but the source's `countPathLength` takes `S`'s branch 0 and
counts 3, so `computeForwardPath` follows `Q`. -/
def cex4Deck : List Card :=
  [ mkCard "O" "decision"
      (some (.split
        [{ label := some "P", target_id := some "P" },
         { label := some "Q", target_id := some "Q" }])),
    mkCard "P" "standard" (some (.linear (some "S"))),
    mkCard "S" "decision"
      (some (.split
        [{ label := some "T0", target_id := some "T0" },
         { label := some "T1", target_id := some "T1" }])),
    mkCard "T0" "standard" none,
    mkCard "T1" "standard" (some (.linear (some "U1"))),
    mkCard "U1" "standard" (some (.linear (some "U2"))),
    mkCard "U2" "standard" none,
    mkCard "Q" "standard" (some (.linear (some "Q2"))),
    mkCard "Q2" "standard" (some (.linear (some "Q3"))),
    mkCard "Q3" "standard" (some (.linear (some "Q4"))),
    mkCard "Q4" "standard" none ]

/-- Environment for the branch-counting counterexample. -/
def cex4Env : Env :=
  { deckMap := cex4Deck.map (fun c => (c.id, c)),
    runtimeDeck := cex4Deck, meta := emptyMeta }

/-- State with the nested split `S` committed to option 1 while the
outer split `O` is still unrecorded. -/
def cex4State : AppState :=
  { initialState with currentId := "O", decisionRecords := [("S", 1)] }

/-- A plain standard card used for the timer counterexample. -/
def cex8Card : Card := mkCard "A" "standard" none

/-- Environment for the timer counterexample. -/
def cex8Env : Env :=
  { deckMap := [("A", cex8Card)], runtimeDeck := [cex8Card],
    meta := emptyMeta }

/-- A state whose timer has been running for 5 seconds. -/
def cex8State : AppState :=
  { initialState with
    currentId := "A", timerSeconds := 5,
    timerRunning := true, timerInterval := true }

/-- A split card with two options, both targets in the deck. -/
def wSplitCard : Card :=
  mkCard "D" "decision"
    (some (.split
      [{ label := some "YES", target_id := some "E" },
       { label := some "NO", target_id := some "F" }]))

/-- Environment with the split card `D` and its two targets. -/
def wSplitEnv : Env :=
  { deckMap :=
      [("D", wSplitCard),
       ("E", mkCard "E" "standard" none),
       ("F", mkCard "F" "standard" none)],
    runtimeDeck := [wSplitCard], meta := emptyMeta }

/-- State sitting on the split card `D`. -/
def wSplitState : AppState := { initialState with currentId := "D" }

/-- A three-card linear chain `A → B → C`. -/
def wChainDeck : List Card :=
  [ mkCard "A" "standard" (some (.linear (some "B"))),
    mkCard "B" "standard" (some (.linear (some "C"))),
    mkCard "C" "standard" none ]

/-- Environment for the linear chain. -/
def wChainEnv : Env :=
  { deckMap := wChainDeck.map (fun c => (c.id, c)),
    runtimeDeck := wChainDeck, meta := emptyMeta }

/-- State sitting on `A` of the linear chain. -/
def wChainState : AppState := { initialState with currentId := "A" }

/-- A card that loops onto itself. -/
def wLoopCard : Card :=
  mkCard "L" "loop_start" (some (.self_loop (some "L")))

/-- Environment for the self-loop card. -/
def wLoopEnv : Env :=
  { deckMap := [("L", wLoopCard)], runtimeDeck := [wLoopCard],
    meta := emptyMeta }

/-- State sitting on the self-loop card. -/
def wLoopState : AppState := { initialState with currentId := "L" }

/-! ## Helper lemmas -/

/-- `render` only writes the wheel/anchor view state; every
navigation field is preserved (one lemma per field). -/
@[simp] theorem render_currentId (env : Env) (s : AppState) :
    (render env s).currentId = s.currentId := by
  cases h : deckGet env s.currentId <;>
    simp [render, syncAnchors, setKnobPositionState, h]

/-- `render` preserves `history`. -/
@[simp] theorem render_history (env : Env) (s : AppState) :
    (render env s).history = s.history := by
  cases h : deckGet env s.currentId <;>
    simp [render, syncAnchors, setKnobPositionState, h]

/-- `render` preserves `decisionIndex`. -/
@[simp] theorem render_decisionIndex (env : Env) (s : AppState) :
    (render env s).decisionIndex = s.decisionIndex := by
  cases h : deckGet env s.currentId <;>
    simp [render, syncAnchors, setKnobPositionState, h]

/-- `render` preserves `decisionRecords`. -/
@[simp] theorem render_decisionRecords (env : Env) (s : AppState) :
    (render env s).decisionRecords = s.decisionRecords := by
  cases h : deckGet env s.currentId <;>
    simp [render, syncAnchors, setKnobPositionState, h]

/-- `render` preserves `decisionTrail`. -/
@[simp] theorem render_decisionTrail (env : Env) (s : AppState) :
    (render env s).decisionTrail = s.decisionTrail := by
  cases h : deckGet env s.currentId <;>
    simp [render, syncAnchors, setKnobPositionState, h]

/-- `render` preserves `decisionTapped`. -/
@[simp] theorem render_decisionTapped (env : Env) (s : AppState) :
    (render env s).decisionTapped = s.decisionTapped := by
  cases h : deckGet env s.currentId <;>
    simp [render, syncAnchors, setKnobPositionState, h]

/-- `render` preserves `carouselIndex`. -/
@[simp] theorem render_carouselIndex (env : Env) (s : AppState) :
    (render env s).carouselIndex = s.carouselIndex := by
  cases h : deckGet env s.currentId <;>
    simp [render, syncAnchors, setKnobPositionState, h]

/-- `render` preserves `timerSeconds`. -/
@[simp] theorem render_timerSeconds (env : Env) (s : AppState) :
    (render env s).timerSeconds = s.timerSeconds := by
  cases h : deckGet env s.currentId <;>
    simp [render, syncAnchors, setKnobPositionState, h]

/-- `render` preserves `timerRunning`. -/
@[simp] theorem render_timerRunning (env : Env) (s : AppState) :
    (render env s).timerRunning = s.timerRunning := by
  cases h : deckGet env s.currentId <;>
    simp [render, syncAnchors, setKnobPositionState, h]

/-- `render` preserves `timerInterval`. -/
@[simp] theorem render_timerInterval (env : Env) (s : AppState) :
    (render env s).timerInterval = s.timerInterval := by
  cases h : deckGet env s.currentId <;>
    simp [render, syncAnchors, setKnobPositionState, h]

/-- `render` preserves `checklistState`. -/
@[simp] theorem render_checklistState (env : Env) (s : AppState) :
    (render env s).checklistState = s.checklistState := by
  cases h : deckGet env s.currentId <;>
    simp [render, syncAnchors, setKnobPositionState, h]

/-- Characterization of `isSplitDecisionCard`. -/
theorem isSplitDecisionCard_iff (c? : Option Card) :
    isSplitDecisionCard c? = true ↔
      ∃ c options, c? = some c ∧
        c.transitions = some (.split options) ∧ options ≠ [] := by
  cases c? with
  | none => simp [isSplitDecisionCard]
  | some c =>
    cases htr : c.transitions with
    | none => simp [isSplitDecisionCard, htr]
    | some t =>
      cases t with
      | linear nid => simp [isSplitDecisionCard, htr]
      | self_loop nid => simp [isSplitDecisionCard, htr]
      | split options =>
        cases options with
        | nil => simp [isSplitDecisionCard, htr]
        | cons o os => simp [isSplitDecisionCard, htr]

/-- Clamp bounds of `normalizeDecisionIndexForCard` on split cards. -/
theorem normalizeDecisionIndex_mem (card : Option Card) (n : JSNum)
    (h : isSplitDecisionCard card = true) :
    0 ≤ normalizeDecisionIndexForCard card n ∧
    normalizeDecisionIndexForCard card n
      ≤ (splitOptionCount card : ℤ) - 1 := by
  obtain ⟨c, options, rfl, htr, hne⟩ := (isSplitDecisionCard_iff card).1 h
  obtain ⟨o, os, rfl⟩ := List.exists_cons_of_ne_nil hne
  cases n with
  | none =>
    simp [normalizeDecisionIndexForCard, splitOptionCount, htr]
  | some q =>
    simp [normalizeDecisionIndexForCard, splitOptionCount, htr]

/-! ## Claim C7 -/

/-- C7: for every card and requested index, the normalized decision
index lies in `[0, optionCount-1]` on split cards with at least one
option, equals 0 on non-split cards or malformed input, and a
non-finite requested index is treated as 0. -/
theorem normalizeDecisionIndex_clamp (card : Option Card) (n : JSNum) :
    (isSplitDecisionCard card = true →
      0 ≤ normalizeDecisionIndexForCard card n ∧
      normalizeDecisionIndexForCard card n
        ≤ (splitOptionCount card : ℤ) - 1) ∧
    (isSplitDecisionCard card = false →
      normalizeDecisionIndexForCard card n = 0) ∧
    normalizeDecisionIndexForCard card none = 0 := by
  refine ⟨fun h => normalizeDecisionIndex_mem card n h, fun h => ?_, ?_⟩
  · cases card with
    | none => simp [normalizeDecisionIndexForCard]
    | some c =>
      cases htr : c.transitions with
      | none => simp [normalizeDecisionIndexForCard, htr]
      | some t =>
        cases t with
        | linear nid => simp [normalizeDecisionIndexForCard, htr]
        | self_loop nid => simp [normalizeDecisionIndexForCard, htr]
        | split options =>
          cases options with
          | nil => simp [normalizeDecisionIndexForCard, htr]
          | cons o os => simp [isSplitDecisionCard, htr] at h
  · cases card with
    | none => simp [normalizeDecisionIndexForCard]
    | some c =>
      cases htr : c.transitions with
      | none => simp [normalizeDecisionIndexForCard, htr]
      | some t =>
        cases t with
        | linear nid => simp [normalizeDecisionIndexForCard, htr]
        | self_loop nid => simp [normalizeDecisionIndexForCard, htr]
        | split options =>
          cases options with
          | nil => simp [normalizeDecisionIndexForCard, htr]
          | cons o os =>
            simp [normalizeDecisionIndexForCard, htr]

/-- Witness for C7: the two-option split card with requested index 7
clamps into `[0, 1]`. -/
theorem normalizeDecisionIndex_clamp_witness :
    isSplitDecisionCard (some wSplitCard) = true ∧
    0 ≤ normalizeDecisionIndexForCard (some wSplitCard) (some 7) ∧
    normalizeDecisionIndexForCard (some wSplitCard) (some 7)
      ≤ (splitOptionCount (some wSplitCard) : ℤ) - 1 :=
  ⟨by decide,
   (normalizeDecisionIndex_clamp (some wSplitCard) (some 7)).1 (by decide)⟩

/-! ## Claim C1 -/

/-- C1: on a split-decision card, `advance({source:'ui'})` without
`splitConfirmed` returns `false` and does not mutate `currentId`,
`decisionRecords` or `decisionTrail`. -/
theorem advance_split_unconfirmed_guard (env : Env) (s : AppState)
    (now : String)
    (h : isSplitDecisionCard (deckGet env s.currentId) = true) :
    (advance env { source := some "ui", splitConfirmed := false } now s).1
      = false ∧
    (advance env { source := some "ui", splitConfirmed := false } now
        s).2.currentId = s.currentId ∧
    (advance env { source := some "ui", splitConfirmed := false } now
        s).2.decisionRecords = s.decisionRecords ∧
    (advance env { source := some "ui", splitConfirmed := false } now
        s).2.decisionTrail = s.decisionTrail := by
  obtain ⟨c, options, hc, htr, hne⟩ := (isSplitDecisionCard_iff _).1 h
  obtain ⟨o, os, rfl⟩ := List.exists_cons_of_ne_nil hne
  have hres :
      advance env { source := some "ui", splitConfirmed := false } now s
        = (false, s) := by
    simp [advance, hc, htr, jsOr,
      (by decide : ("ui".isEmpty) = false),
      (by decide : (("ui" == "automation") : Bool) = false)]
  simp [hres]

/-- Witness for C1 at the concrete split card `D`. -/
theorem advance_split_unconfirmed_guard_witness :
    isSplitDecisionCard (deckGet wSplitEnv wSplitState.currentId) = true ∧
    (advance wSplitEnv { source := some "ui", splitConfirmed := false }
        "2026-01-01T00:00:00.000Z" wSplitState).1 = false ∧
    (advance wSplitEnv { source := some "ui", splitConfirmed := false }
        "2026-01-01T00:00:00.000Z" wSplitState).2.currentId
      = wSplitState.currentId ∧
    (advance wSplitEnv { source := some "ui", splitConfirmed := false }
        "2026-01-01T00:00:00.000Z" wSplitState).2.decisionRecords
      = wSplitState.decisionRecords ∧
    (advance wSplitEnv { source := some "ui", splitConfirmed := false }
        "2026-01-01T00:00:00.000Z" wSplitState).2.decisionTrail
      = wSplitState.decisionTrail :=
  ⟨by decide,
   advance_split_unconfirmed_guard wSplitEnv wSplitState
     "2026-01-01T00:00:00.000Z" (by decide)⟩

/-! ## Claim C10 -/

/-- C10: on a split-decision card, `selectDecisionOption(index)` never
reports an error for any numeric index: it returns ok, stores the
clamped value (in `[0, optionCount-1]`) in `decisionIndex`, and sets
`decisionTapped`. -/
theorem selectDecisionOption_total (env : Env) (idx : JSNum)
    (s : AppState)
    (h : isSplitDecisionCard (deckGet env s.currentId) = true) :
    (selectDecisionOption env idx s).1.ok = true ∧
    (selectDecisionOption env idx s).1.error = none ∧
    (selectDecisionOption env idx s).2.decisionIndex
      = normalizeDecisionIndexForCard (deckGet env s.currentId) idx ∧
    0 ≤ (selectDecisionOption env idx s).2.decisionIndex ∧
    (selectDecisionOption env idx s).2.decisionIndex
      ≤ (splitOptionCount (deckGet env s.currentId) : ℤ) - 1 ∧
    (selectDecisionOption env idx s).2.decisionTapped = true := by
  obtain ⟨c, options, hc, htr, hne⟩ := (isSplitDecisionCard_iff _).1 h
  have hmem := normalizeDecisionIndex_mem (deckGet env s.currentId) idx h
  have hsel : selectDecisionOption env idx s
      = ({ ok := true, error := none },
         render env { s with
           decisionIndex := normalizeDecisionIndexForCard (some c) idx
           decisionTapped := true }) := by
    simp [selectDecisionOption, hc, htr]
  rw [hsel] at *
  rw [hc] at hmem ⊢
  simpa using hmem

/-- Witness for C10 at the split card `D` with requested index -3. -/
theorem selectDecisionOption_total_witness :
    isSplitDecisionCard (deckGet wSplitEnv wSplitState.currentId)
      = true ∧
    (selectDecisionOption wSplitEnv (some (-3)) wSplitState).1.ok
      = true ∧
    (selectDecisionOption wSplitEnv (some (-3)) wSplitState).1.error
      = none ∧
    (selectDecisionOption wSplitEnv (some (-3))
        wSplitState).2.decisionIndex
      = normalizeDecisionIndexForCard
          (deckGet wSplitEnv wSplitState.currentId) (some (-3)) ∧
    0 ≤ (selectDecisionOption wSplitEnv (some (-3))
        wSplitState).2.decisionIndex ∧
    (selectDecisionOption wSplitEnv (some (-3))
        wSplitState).2.decisionIndex
      ≤ (splitOptionCount (deckGet wSplitEnv wSplitState.currentId) : ℤ)
          - 1 ∧
    (selectDecisionOption wSplitEnv (some (-3))
        wSplitState).2.decisionTapped = true :=
  ⟨by decide,
   selectDecisionOption_total wSplitEnv (some (-3)) wSplitState
     (by decide)⟩

/-! ## Claim C9 -/

/-- C9: on a non-complete card whose `self_loop` transition points at
the card itself, `advance` returns `true` without changing the current
card or the history; `decisionTapped` and `carouselIndex` are reset,
the elapsed seconds are untouched, and a running timer stays running
(the call may only start it). -/
theorem advance_self_loop (env : Env) (options : AdvanceOptions)
    (now : String) (s : AppState) (card : Card)
    (hc : deckGet env s.currentId = some card)
    (hid : card.id = s.currentId)
    (hne : s.currentId.isEmpty = false)
    (hst : card.status ≠ some "complete")
    (htr : card.transitions = some (.self_loop (some card.id))) :
    (advance env options now s).1 = true ∧
    (advance env options now s).2.currentId = s.currentId ∧
    (advance env options now s).2.history = s.history ∧
    (advance env options now s).2.decisionTapped = false ∧
    (advance env options now s).2.carouselIndex = 0 ∧
    (advance env options now s).2.timerSeconds = s.timerSeconds ∧
    (s.timerRunning = true →
      (advance env options now s).2.timerRunning = true) := by
  rw [hid] at htr
  have hres : advance env options now s
      = (true,
         render env
           (if !s.timerRunning
               && (!truthy env.meta.auto_start_on_card
                   || env.meta.auto_start_on_card == some s.currentId)
            then startTimer { s with
              decisionIndex :=
                if isSplitDecisionCard (some card)
                then rememberedDecisionIndexForCard s card else 0
              decisionTapped := false
              carouselIndex := 0 }
            else { s with
              decisionIndex :=
                if isSplitDecisionCard (some card)
                then rememberedDecisionIndexForCard s card else 0
              decisionTapped := false
              carouselIndex := 0 })) := by
    simp [advance, hc, htr, truthy, hne, hst]
  rw [hres]
  split <;> simp [startTimer]

/-- Witness for C9 at the concrete self-loop card `L`. -/
theorem advance_self_loop_witness :
    (deckGet wLoopEnv wLoopState.currentId = some wLoopCard ∧
     wLoopCard.id = wLoopState.currentId ∧
     wLoopState.currentId.isEmpty = false ∧
     wLoopCard.status ≠ some "complete" ∧
     wLoopCard.transitions = some (.self_loop (some wLoopCard.id))) ∧
    (advance wLoopEnv { source := some "ui", splitConfirmed := false }
        "2026-01-01T00:00:00.000Z" wLoopState).1 = true ∧
    (advance wLoopEnv { source := some "ui", splitConfirmed := false }
        "2026-01-01T00:00:00.000Z" wLoopState).2.currentId
      = wLoopState.currentId ∧
    (advance wLoopEnv { source := some "ui", splitConfirmed := false }
        "2026-01-01T00:00:00.000Z" wLoopState).2.history
      = wLoopState.history ∧
    (advance wLoopEnv { source := some "ui", splitConfirmed := false }
        "2026-01-01T00:00:00.000Z" wLoopState).2.decisionTapped
      = false ∧
    (advance wLoopEnv { source := some "ui", splitConfirmed := false }
        "2026-01-01T00:00:00.000Z" wLoopState).2.carouselIndex = 0 ∧
    (advance wLoopEnv { source := some "ui", splitConfirmed := false }
        "2026-01-01T00:00:00.000Z" wLoopState).2.timerSeconds
      = wLoopState.timerSeconds ∧
    (wLoopState.timerRunning = true →
      (advance wLoopEnv { source := some "ui", splitConfirmed := false }
          "2026-01-01T00:00:00.000Z" wLoopState).2.timerRunning
        = true) :=
  ⟨⟨by decide, by decide, by decide, by decide, by decide⟩,
   advance_self_loop wLoopEnv
     { source := some "ui", splitConfirmed := false }
     "2026-01-01T00:00:00.000Z" wLoopState wLoopCard
     (by decide) (by decide) (by decide) (by decide) (by decide)⟩

/-! ## Claim C6 -/

/-- Shape of a successful linear advance: the state passed to the
final `render` has moved to `B`, pushed the old current id onto the
history, and left records, trail, checklist and clock untouched. -/
theorem advance_linear_shape (env : Env) (options : AdvanceOptions)
    (now : String) (s : AppState) (cardA cardB : Card) (B : String)
    (hA : deckGet env s.currentId = some cardA)
    (hst : cardA.status ≠ some "complete")
    (htr : cardA.transitions = some (.linear (some B)))
    (hBne : B.isEmpty = false)
    (hB : deckGet env B = some cardB)
    (hne : B ≠ s.currentId) :
    ∃ s4 : AppState,
      advance env options now s = (true, render env s4) ∧
      s4.currentId = B ∧
      s4.history = s.history ++ [s.currentId] ∧
      s4.decisionRecords = s.decisionRecords ∧
      s4.decisionTrail = s.decisionTrail ∧
      s4.checklistState = s.checklistState ∧
      s4.timerSeconds = s.timerSeconds := by
  have hres : advance env options now s
      = (true,
         render env
           (if !s.timerRunning
               && (!truthy env.meta.auto_start_on_card
                   || env.meta.auto_start_on_card == some B)
            then startTimer { s with
              history := s.history ++ [s.currentId]
              currentId := B
              decisionIndex :=
                if isSplitDecisionCard (some cardB)
                then rememberedDecisionIndexForCard
                  { s with history := s.history ++ [s.currentId],
                           currentId := B } cardB
                else 0
              decisionTapped := false
              carouselIndex := 0 }
            else { s with
              history := s.history ++ [s.currentId]
              currentId := B
              decisionIndex :=
                if isSplitDecisionCard (some cardB)
                then rememberedDecisionIndexForCard
                  { s with history := s.history ++ [s.currentId],
                           currentId := B } cardB
                else 0
              decisionTapped := false
              carouselIndex := 0 })) := by
    simp [advance, hA, htr, hB, hBne, hst, hne]
  refine ⟨_, hres, ?_, ?_, ?_, ?_, ?_, ?_⟩ <;>
    split <;> simp [startTimer]

/-- C6: advance then rewind is the identity on a non-decision linear
chain `A → B`: the walk returns to `A` with the decision index and the
checklist exactly as before, and the history round-trips. (At a
non-decision current card the engine keeps `decisionIndex = 0`, which
is the standing invariant assumed here.) -/
theorem advance_rewind_roundtrip (env : Env) (options : AdvanceOptions)
    (now : String) (s : AppState) (cardA cardB : Card) (B : String)
    (hA : deckGet env s.currentId = some cardA)
    (hst : cardA.status ≠ some "complete")
    (htr : cardA.transitions = some (.linear (some B)))
    (hBne : B.isEmpty = false)
    (hB : deckGet env B = some cardB)
    (hne : B ≠ s.currentId)
    (hidx : s.decisionIndex = 0) :
    (advance env options now s).1 = true ∧
    (rewind env (advance env options now s).2).1 = true ∧
    (rewind env (advance env options now s).2).2.currentId
      = s.currentId ∧
    (rewind env (advance env options now s).2).2.decisionIndex
      = s.decisionIndex ∧
    (rewind env (advance env options now s).2).2.checklistState
      = s.checklistState ∧
    (rewind env (advance env options now s).2).2.history = s.history := by
  obtain ⟨s4, hadv, hcur, hhist, hrec, htrail, hchk, hsec⟩ :=
    advance_linear_shape env options now s cardA cardB B
      hA hst htr hBne hB hne
  have hASplit : isSplitDecisionCard (some cardA) = false := by
    simp [isSplitDecisionCard, htr]
  have hrew : rewind env (render env s4)
      = (true,
         render env
           { render env s4 with
             history := s.history
             currentId := s.currentId
             decisionIndex := 0
             decisionTapped := false
             carouselIndex := 0 }) := by
    simp only [rewind, render_history, hhist, List.getLast?_concat,
      List.dropLast_concat, hA, hASplit, render_currentId]
    simp [hA, hASplit]
  rw [hadv]
  simp [hrew, hidx, hchk]

/-- Witness for C6 on the chain `A → B → C`, advancing from `A`. -/
theorem advance_rewind_roundtrip_witness :
    ((advance wChainEnv { source := none, splitConfirmed := false }
        "2026-01-01T00:00:00.000Z" wChainState).1 = true ∧
     (rewind wChainEnv
        (advance wChainEnv { source := none, splitConfirmed := false }
          "2026-01-01T00:00:00.000Z" wChainState).2).1 = true ∧
     (rewind wChainEnv
        (advance wChainEnv { source := none, splitConfirmed := false }
          "2026-01-01T00:00:00.000Z" wChainState).2).2.currentId
       = wChainState.currentId ∧
     (rewind wChainEnv
        (advance wChainEnv { source := none, splitConfirmed := false }
          "2026-01-01T00:00:00.000Z" wChainState).2).2.decisionIndex
       = wChainState.decisionIndex ∧
     (rewind wChainEnv
        (advance wChainEnv { source := none, splitConfirmed := false }
          "2026-01-01T00:00:00.000Z" wChainState).2).2.checklistState
       = wChainState.checklistState ∧
     (rewind wChainEnv
        (advance wChainEnv { source := none, splitConfirmed := false }
          "2026-01-01T00:00:00.000Z" wChainState).2).2.history
       = wChainState.history) :=
  advance_rewind_roundtrip wChainEnv
    { source := none, splitConfirmed := false }
    "2026-01-01T00:00:00.000Z" wChainState
    (mkCard "A" "standard" (some (.linear (some "B"))))
    (mkCard "B" "standard" (some (.linear (some "C")))) "B"
    (by decide) (by decide) (by decide) (by decide) (by decide)
    (by decide) (by decide)

/-! ## Claim C2 -/

/-- Truthiness characterization for nullable strings. -/
theorem truthy_eq_true_iff (o : Option String) :
    truthy o = true ↔ ∃ x, o = some x ∧ x.isEmpty = false := by
  cases o with
  | none => simp [truthy]
  | some x => simp [truthy]

/-- C2 (amended): whenever `advance` returns `false`, `currentId` and
`history` are unchanged, and `decisionRecords`/`decisionTrail` are
unchanged as well — except when the `false` comes from a *confirmed*
split transition whose resolved target fails the deck check, in which
case the chosen option has already been recorded and one trail entry
appended before the move fails. -/
theorem advance_false_noop (env : Env) (options : AdvanceOptions)
    (now : String) (s : AppState)
    (h : (advance env options now s).1 = false) :
    (advance env options now s).2.currentId = s.currentId ∧
    (advance env options now s).2.history = s.history ∧
    ((advance env options now s).2.decisionRecords = s.decisionRecords ∧
       (advance env options now s).2.decisionTrail = s.decisionTrail ∨
     ∃ card opts, deckGet env s.currentId = some card ∧
       card.transitions = some (.split opts) ∧ opts ≠ [] ∧
       (options.splitConfirmed
         || (jsOr options.source "ui" == "automation")) = true ∧
       (advance env options now s).2.decisionRecords
         = recInsert s.decisionRecords card.id
             (normalizeDecisionIndexForCard (some card)
               (some (s.decisionIndex : ℚ))) ∧
       ∃ e : DecisionTrailEntry,
         (advance env options now s).2.decisionTrail
           = s.decisionTrail ++ [e]) := by
  cases hc : deckGet env s.currentId with
  | none => simp [advance, hc]
  | some card =>
    by_cases hst : card.status = some "complete"
    · simp [advance, hc, hst]
    · cases htr : card.transitions with
      | none => simp [advance, hc, hst, htr]
      | some t =>
        cases t with
        | linear nid =>
          cases nid with
          | none => simp [advance, hc, hst, htr]
          | some x =>
            by_cases hx : x.isEmpty
            · simp [advance, hc, hst, htr, hx]
            · cases hdx : deckGet env x with
              | none => simp [advance, hc, hst, htr, hx, hdx]
              | some cx => simp [advance, hc, hst, htr, hx, hdx] at h
        | self_loop nid =>
          by_cases htn : truthy nid = true
          · obtain ⟨x, rfl, hx⟩ := (truthy_eq_true_iff nid).1 htn
            cases hdx : deckGet env x with
            | none => simp [advance, hc, hst, htr, htn, hx, hdx]
            | some cx => simp [advance, hc, hst, htr, htn, hx, hdx] at h
          · by_cases hid : card.id.isEmpty
            · simp [advance, hc, hst, htr, htn, hid]
            · cases hdx : deckGet env card.id with
              | none => simp [advance, hc, hst, htr, htn, hid, hdx]
              | some cx =>
                simp [advance, hc, hst, htr, htn, hid, hdx] at h
        | split opts =>
          cases opts with
          | nil => simp [advance, hc, hst, htr]
          | cons o os =>
            by_cases hconf :
                (options.splitConfirmed
                  || (jsOr options.source "ui" == "automation")) = true
            · -- confirmed split: records/trail are written before the
              -- deck check on the resolved target.
              cases hpick : listGetJS (o :: os)
                  (normalizeDecisionIndexForCard (some card)
                    (some (s.decisionIndex : ℚ))) with
              | none =>
                refine ⟨?_, ?_,
                  Or.inr ⟨card, o :: os, rfl, htr, by simp, hconf, ?_,
                    ?_⟩⟩ <;>
                  simp [advance, hc, hst, htr, hconf, hpick]
              | some p =>
                rcases hti : p.target_id with _ | x
                · refine ⟨?_, ?_,
                    Or.inr ⟨card, o :: os, rfl, htr, by simp, hconf, ?_,
                      ?_⟩⟩ <;>
                    simp [advance, hc, hst, htr, hconf, hpick, hti]
                · by_cases hx : x.isEmpty
                  · refine ⟨?_, ?_,
                      Or.inr ⟨card, o :: os, rfl, htr, by simp, hconf,
                        ?_, ?_⟩⟩ <;>
                      simp [advance, hc, hst, htr, hconf, hpick, hti, hx]
                  · cases hdx : deckGet env x with
                    | none =>
                      refine ⟨?_, ?_,
                        Or.inr ⟨card, o :: os, rfl, htr, by simp, hconf,
                          ?_, ?_⟩⟩ <;>
                        simp [advance, hc, hst, htr, hconf, hpick, hti,
                          hx, hdx]
                    | some cx =>
                      simp [advance, hc, hst, htr, hconf, hpick, hti,
                        hx, hdx] at h
            · -- unconfirmed split: plain no-op.
              have hconf' :
                  (options.splitConfirmed
                    || (jsOr options.source "ui" == "automation"))
                    = false := by
                simpa using hconf
              simp [advance, hc, hst, htr, hconf']

/-- C2 counterexample: a *confirmed* advance on the split card whose
only option targets a card absent from the deck returns `false` and
yet mutates `decisionRecords` and `decisionTrail`, so the claim's
blanket "decisionRecords and decisionTrail are unchanged whenever
advance returns false" is false on this input. -/
theorem advance_false_mutation_cex :
    (advance cex2Env cex2Opts "2026-01-01T00:00:00.000Z" cex2State).1
      = false ∧
    (advance cex2Env cex2Opts
        "2026-01-01T00:00:00.000Z" cex2State).2.decisionRecords
      ≠ cex2State.decisionRecords ∧
    (advance cex2Env cex2Opts
        "2026-01-01T00:00:00.000Z" cex2State).2.decisionTrail
      ≠ cex2State.decisionTrail := by
  decide

/-- Witness for C2 (amended) at the concrete malformed split deck. -/
theorem advance_false_noop_witness :
    (advance cex2Env cex2Opts "2026-01-01T00:00:00.000Z" cex2State).1
      = false ∧
    (advance cex2Env cex2Opts
        "2026-01-01T00:00:00.000Z" cex2State).2.currentId
      = cex2State.currentId ∧
    (advance cex2Env cex2Opts
        "2026-01-01T00:00:00.000Z" cex2State).2.history
      = cex2State.history ∧
    ((advance cex2Env cex2Opts
          "2026-01-01T00:00:00.000Z" cex2State).2.decisionRecords
        = cex2State.decisionRecords ∧
       (advance cex2Env cex2Opts
          "2026-01-01T00:00:00.000Z" cex2State).2.decisionTrail
        = cex2State.decisionTrail ∨
     ∃ card opts, deckGet cex2Env cex2State.currentId = some card ∧
       card.transitions = some (.split opts) ∧ opts ≠ [] ∧
       (cex2Opts.splitConfirmed
         || (jsOr cex2Opts.source "ui" == "automation")) = true ∧
       (advance cex2Env cex2Opts
          "2026-01-01T00:00:00.000Z" cex2State).2.decisionRecords
         = recInsert cex2State.decisionRecords card.id
             (normalizeDecisionIndexForCard (some card)
               (some (cex2State.decisionIndex : ℚ))) ∧
       ∃ e : DecisionTrailEntry,
         (advance cex2Env cex2Opts
            "2026-01-01T00:00:00.000Z" cex2State).2.decisionTrail
           = cex2State.decisionTrail ++ [e]) :=
  ⟨by decide,
   advance_false_noop cex2Env cex2Opts
     "2026-01-01T00:00:00.000Z" cex2State (by decide)⟩

/-! ## Claim C8 -/

/-- `advance` never zeroes the elapsed seconds and never stops a
running timer (it can only start one). -/
theorem advance_timer (env : Env) (options : AdvanceOptions)
    (now : String) (s : AppState) :
    (advance env options now s).2.timerSeconds = s.timerSeconds ∧
    (s.timerRunning = true →
      (advance env options now s).2.timerRunning = true) := by
  cases hc : deckGet env s.currentId with
  | none => simp [advance, hc]
  | some card =>
    by_cases hst : card.status = some "complete"
    · simp [advance, hc, hst]
    · cases htr : card.transitions with
      | none => simp [advance, hc, hst, htr]
      | some t =>
        cases t with
        | linear nid =>
          cases nid with
          | none => simp [advance, hc, hst, htr]
          | some x =>
            by_cases hx : x.isEmpty
            · simp [advance, hc, hst, htr, hx]
            · cases hdx : deckGet env x with
              | none => simp [advance, hc, hst, htr, hx, hdx]
              | some cx =>
                refine ⟨?_, fun h => ?_⟩
                · simp [advance, hc, hst, htr, hx, hdx,
                    apply_ite AppState.timerSeconds, startTimer]
                · simp [advance, hc, hst, htr, hx, hdx, h, startTimer]
        | self_loop nid =>
          by_cases htn : truthy nid = true
          · obtain ⟨x, rfl, hx⟩ := (truthy_eq_true_iff nid).1 htn
            cases hdx : deckGet env x with
            | none => simp [advance, hc, hst, htr, htn, hx, hdx]
            | some cx =>
              refine ⟨?_, fun h => ?_⟩
              · simp [advance, hc, hst, htr, htn, hx, hdx,
                  apply_ite AppState.timerSeconds, startTimer]
              · simp [advance, hc, hst, htr, htn, hx, hdx, h,
                  startTimer]
          · by_cases hid : card.id.isEmpty
            · simp [advance, hc, hst, htr, htn, hid]
            · cases hdx : deckGet env card.id with
              | none => simp [advance, hc, hst, htr, htn, hid, hdx]
              | some cx =>
                refine ⟨?_, fun h => ?_⟩
                · simp [advance, hc, hst, htr, htn, hid, hdx,
                    apply_ite AppState.timerSeconds, startTimer]
                · simp [advance, hc, hst, htr, htn, hid, hdx, h,
                    startTimer]
        | split opts =>
          cases opts with
          | nil => simp [advance, hc, hst, htr]
          | cons o os =>
            by_cases hconf :
                (options.splitConfirmed
                  || (jsOr options.source "ui" == "automation")) = true
            · cases hpick : listGetJS (o :: os)
                  (normalizeDecisionIndexForCard (some card)
                    (some (s.decisionIndex : ℚ))) with
              | none => simp [advance, hc, hst, htr, hconf, hpick]
              | some p =>
                rcases hti : p.target_id with _ | x
                · simp [advance, hc, hst, htr, hconf, hpick, hti]
                · by_cases hx : x.isEmpty
                  · simp [advance, hc, hst, htr, hconf, hpick, hti, hx]
                  · cases hdx : deckGet env x with
                    | none =>
                      simp [advance, hc, hst, htr, hconf, hpick, hti,
                        hx, hdx]
                    | some cx =>
                      refine ⟨?_, fun h => ?_⟩
                      · simp [advance, hc, hst, htr, hconf, hpick,
                          hti, hx, hdx,
                          apply_ite AppState.timerSeconds, startTimer]
                      · simp [advance, hc, hst, htr, hconf, hpick,
                          hti, hx, hdx, h, startTimer]
            · have hconf' :
                  (options.splitConfirmed
                    || (jsOr options.source "ui" == "automation"))
                    = false := by
                simpa using hconf
              simp [advance, hc, hst, htr, hconf']

/-- `rewind` never touches the timer state. -/
theorem rewind_timer (env : Env) (s : AppState) :
    (rewind env s).2.timerSeconds = s.timerSeconds ∧
    (rewind env s).2.timerRunning = s.timerRunning := by
  cases hl : s.history.getLast? with
  | none => simp [rewind, hl]
  | some prevId =>
    cases hdp : deckGet env prevId with
    | none =>
      simp [rewind, hl, hdp, apply_ite AppState.timerSeconds,
        apply_ite AppState.timerRunning]
    | some pc =>
      simp [rewind, hl, hdp, apply_ite AppState.timerSeconds,
        apply_ite AppState.timerRunning]

/-- C8 (amended): `advance` and `rewind` never reset the elapsed-time
clock (`advance` can only start it), but the automation navigation
calls `gotoCard` and `reset` *do* reset it: every successful direct
jump clears `timerRunning` and zeroes `timerSeconds` through
`resetTimerState`. -/
theorem timer_navigation (env : Env) (options : AdvanceOptions)
    (now : String) (s : AppState) (id : String) :
    ((advance env options now s).2.timerSeconds = s.timerSeconds ∧
     (s.timerRunning = true →
       (advance env options now s).2.timerRunning = true)) ∧
    ((rewind env s).2.timerSeconds = s.timerSeconds ∧
     (rewind env s).2.timerRunning = s.timerRunning) ∧
    (∀ card, deckGet env id = some card →
      (gotoCard env id s).2.timerSeconds = 0 ∧
      (gotoCard env id s).2.timerRunning = false) ∧
    (∀ card,
      deckGet env (jsOr (currentAlgorithmStartId env) s.currentId)
        = some card →
      (automationReset env s).2.timerSeconds = 0 ∧
      (automationReset env s).2.timerRunning = false) := by
  refine ⟨advance_timer env options now s, rewind_timer env s,
    fun card hcard => ?_, fun card hcard => ?_⟩
  · simp [gotoCard, setCurrentCardForAutomation, hcard, resetTimerState]
  · simp [automationReset, setCurrentCardForAutomation, hcard,
      resetTimerState]

/-- C8 counterexample: with the timer running at 5 seconds, the
automation `gotoCard` jump zeroes `timerSeconds` and clears
`timerRunning`, refuting "the elapsed-time clock is never reset by
navigation" for the automation navigation calls. -/
theorem gotoCard_resets_timer_cex :
    cex8State.timerRunning = true ∧ cex8State.timerSeconds = 5 ∧
    (gotoCard cex8Env "A" cex8State).2.timerSeconds = 0 ∧
    (gotoCard cex8Env "A" cex8State).2.timerRunning = false := by
  decide

/-- Witness for C8 (amended) on the one-card deck with a running
timer. -/
theorem timer_navigation_witness :
    (advance cex8Env { source := some "ui", splitConfirmed := false }
        "2026-01-01T00:00:00.000Z" cex8State).2.timerSeconds
      = cex8State.timerSeconds ∧
    (advance cex8Env { source := some "ui", splitConfirmed := false }
        "2026-01-01T00:00:00.000Z" cex8State).2.timerRunning = true ∧
    (rewind cex8Env cex8State).2.timerSeconds
      = cex8State.timerSeconds ∧
    (gotoCard cex8Env "A" cex8State).2.timerSeconds = 0 ∧
    (gotoCard cex8Env "A" cex8State).2.timerRunning = false ∧
    (automationReset cex8Env cex8State).2.timerSeconds = 0 :=
  ⟨(timer_navigation cex8Env
      { source := some "ui", splitConfirmed := false }
      "2026-01-01T00:00:00.000Z" cex8State "A").1.1,
   (timer_navigation cex8Env
      { source := some "ui", splitConfirmed := false }
      "2026-01-01T00:00:00.000Z" cex8State "A").1.2 (by decide),
   (timer_navigation cex8Env
      { source := some "ui", splitConfirmed := false }
      "2026-01-01T00:00:00.000Z" cex8State "A").2.1.1,
   ((timer_navigation cex8Env
      { source := some "ui", splitConfirmed := false }
      "2026-01-01T00:00:00.000Z" cex8State "A").2.2.1 cex8Card
      (by decide)).1,
   ((timer_navigation cex8Env
      { source := some "ui", splitConfirmed := false }
      "2026-01-01T00:00:00.000Z" cex8State "A").2.2.1 cex8Card
      (by decide)).2,
   ((timer_navigation cex8Env
      { source := some "ui", splitConfirmed := false }
      "2026-01-01T00:00:00.000Z" cex8State "A").2.2.2 cex8Card
      (by decide)).1⟩

/-! ## Claim C5 -/

/-- `normalizeDegrees` lands in `[0, 360)`. -/
theorem normalizeDegrees_mem (q : ℚ) :
    0 ≤ normalizeDegrees q ∧ normalizeDegrees q < 360 := by
  unfold normalizeDegrees jsRem360
  by_cases hq : (0 : ℚ) ≤ q
  · have h1 : ((⌊q / 360⌋ : ℤ) : ℚ) ≤ q / 360 := Int.floor_le _
    have h2 : q / 360 < (⌊q / 360⌋ : ℤ) + 1 := Int.lt_floor_add_one _
    rw [if_pos hq, if_neg (by linarith)]
    constructor <;> linarith
  · have h1 : ((⌊(-q) / 360⌋ : ℤ) : ℚ) ≤ (-q) / 360 := Int.floor_le _
    have h2 : (-q) / 360 < (⌊(-q) / 360⌋ : ℤ) + 1 :=
      Int.lt_floor_add_one _
    rw [if_neg hq]
    by_cases hm : q - 360 * ((-⌊(-q) / 360⌋ : ℤ) : ℚ) < 0
    · rw [if_pos hm]
      push_cast at hm ⊢
      constructor <;> linarith
    · rw [if_neg hm]
      push_cast at hm ⊢
      constructor <;> linarith

/-- One `setKnobPosition` update moves the visual angle by at most
180°. -/
theorem setKnobVisual_step (v d : ℚ) :
    |setKnobVisual v d - v| ≤ 180 := by
  obtain ⟨hT0, hT1⟩ := normalizeDegrees_mem d
  obtain ⟨hL0, hL1⟩ := normalizeDegrees_mem v
  simp only [setKnobVisual]
  rw [abs_le]
  set T := normalizeDegrees d
  set L := normalizeDegrees v
  by_cases h1 : (180 : ℚ) < T - L
  · rw [if_pos h1]
    rw [if_neg (by linarith)]
    constructor <;> linarith
  · rw [if_neg h1]
    by_cases h2 : T - L < -180
    · rw [if_pos h2]
      constructor <;> linarith
    · rw [if_neg h2]
      constructor <;> linarith

/-- C5: for every sequence of `setKnobPosition` targets in `[0, 360)`
and every initial visual angle, consecutive accumulated visual angles
never differ by more than 180° in absolute value. -/
theorem visualAngle_continuity (init : ℚ) (targets : List ℚ)
    (h : ∀ d ∈ targets, 0 ≤ d ∧ d < 360) :
    List.Chain' (fun a b => |b - a| ≤ 180) (knobTrace init targets) := by
  induction targets generalizing init with
  | nil => simp [knobTrace]
  | cons d ds ih =>
    have hrest : ∀ x ∈ ds, 0 ≤ x ∧ x < 360 :=
      fun x hx => h x (List.mem_cons_of_mem _ hx)
    have htail := ih (setKnobVisual init d) hrest
    have hhead : (knobTrace (setKnobVisual init d) ds).head?
        = some (setKnobVisual init d) := by
      cases ds <;> simp [knobTrace, List.scanl]
    have hstep : |setKnobVisual init d - init| ≤ 180 :=
      setKnobVisual_step init d
    rw [knobTrace, List.scanl, List.chain'_cons']
    refine ⟨?_, htail⟩
    intro b hb
    rw [knobTrace] at hhead
    rw [hhead] at hb
    obtain rfl : setKnobVisual init d = b := by simpa using hb
    exact hstep

/-- Witness for C5: a target sequence crossing the 0/360 seam both
ways, starting from the initial visual angle 330. -/
theorem visualAngle_continuity_witness :
    (∀ d ∈ ([0, 350, 10, 180] : List ℚ), 0 ≤ d ∧ d < 360) ∧
    List.Chain' (fun a b => |b - a| ≤ 180)
      (knobTrace 330 [0, 350, 10, 180]) :=
  ⟨by decide, visualAngle_continuity 330 [0, 350, 10, 180] (by decide)⟩

/-! ## Claim C3 -/

/-- The forward-path loop never pushes an id twice: the accumulated
path stays duplicate-free as long as it is covered by the visited
set. -/
theorem computeForwardPathAux_nodup (env : Env) (s : AppState) :
    ∀ (fuel : ℕ) (start : Option String) (visited path : List String),
      path.Nodup → (∀ x ∈ path, x ∈ visited) →
      (computeForwardPathAux env s fuel start visited path).Nodup := by
  intro fuel
  induction fuel with
  | zero =>
    intro start visited path hnd hsub
    simpa [computeForwardPathAux] using hnd
  | succ n ih =>
    intro start visited path hnd hsub
    cases start with
    | none => simpa [computeForwardPathAux] using hnd
    | some cardId =>
      by_cases he : cardId.isEmpty
      · simpa [computeForwardPathAux, he] using hnd
      · cases hc : deckGet env cardId with
        | none => simpa [computeForwardPathAux, he, hc] using hnd
        | some card =>
          by_cases hv : cardId ∈ visited
          · simpa [computeForwardPathAux, he, hc, hv] using hnd
          · have hnotin : cardId ∉ path := fun hmem => hv (hsub _ hmem)
            have hdisj : path.Disjoint [cardId] := by
              intro a ha hb
              simp only [List.mem_singleton] at hb
              subst hb
              exact hnotin ha
            have hnd' : (path ++ [cardId]).Nodup :=
              hnd.append (List.nodup_singleton _) hdisj
            have hsub' : ∀ x ∈ path ++ [cardId],
                x ∈ cardId :: visited := by
              intro x hx
              rcases List.mem_append.1 hx with hx | hx
              · exact List.mem_cons_of_mem _ (hsub x hx)
              · simp only [List.mem_singleton] at hx
                subst hx
                exact List.mem_cons_self _ _
            have hrec := ih (forwardStep env s card (cardId :: visited))
              (cardId :: visited) (path ++ [cardId]) hnd' hsub'
            simpa [computeForwardPathAux, he, hc, hv] using hrec

/-- The forward path is duplicate-free. -/
theorem computeForwardPath_nodup (env : Env) (s : AppState) :
    (computeForwardPath env s).Nodup := by
  unfold computeForwardPath
  exact computeForwardPathAux_nodup env s _ _ _ _ (by simp) (by simp)

/-- C3: the anchor list has exactly one entry per forward-path card,
with the unique path ids in path order; card `i` of `n ≥ 2` sits at
`angleOnArc(arc, i/(n-1))` and a single-card path sits at the arc's
start angle. -/
theorem computeAnchors_spec (env : Env) (s : AppState) :
    (computeAnchors env s).length = (computeForwardPath env s).length ∧
    (computeAnchors env s).map Anchor.id = computeForwardPath env s ∧
    (computeForwardPath env s).Nodup ∧
    ((computeForwardPath env s).length = 1 →
      computeAnchors env s
        = [{ id := (computeForwardPath env s).headI,
             angle := (getCurrentWheelArc env).start_degrees }]) ∧
    (∀ i : ℕ, 2 ≤ (computeForwardPath env s).length →
      i < (computeForwardPath env s).length →
      (computeAnchors env s).getD i { id := "", angle := 0 }
        = { id := (computeForwardPath env s).getD i ""
            angle := angleOnArc (getCurrentWheelArc env)
              ((i : ℚ)
                / (((computeForwardPath env s).length : ℚ) - 1)) }) := by
  have hnodup := computeForwardPath_nodup env s
  simp only [computeAnchors]
  generalize hpath : computeForwardPath env s = path
  rw [hpath] at hnodup
  generalize getCurrentWheelArc env = arc
  rcases path with _ | ⟨x, _ | ⟨y, rest⟩⟩
  · simp
  · simp
  · have hlen2 : ¬((x :: y :: rest).length = 0) := by simp
    have hlen1 : ¬((x :: y :: rest).length = 1) := by simp
    refine ⟨?_, ?_, hnodup, by simp, ?_⟩
    · simp [List.enum_length]
    · simp only [if_neg hlen2, if_neg hlen1, List.map_map]
      have hcomp :
          (Anchor.id ∘ fun p : ℕ × String =>
            ({ id := p.2,
               angle := angleOnArc arc
                 ((p.1 : ℚ)
                   / (((x :: y :: rest).length : ℚ) - 1)) } : Anchor))
            = Prod.snd := rfl
      rw [hcomp, List.enum_map_snd]
    · intro i h2 hi
      simp only [if_neg hlen2, if_neg hlen1]
      have hi' : i < ((x :: y :: rest).enum.map
          (fun p : ℕ × String =>
            ({ id := p.2,
               angle := angleOnArc arc
                 ((p.1 : ℚ)
                   / (((x :: y :: rest).length : ℚ) - 1)) } : Anchor))).length := by
        simpa [List.enum_length] using hi
      rw [List.getD_eq_getElem _ _ hi', List.getElem_map,
        List.getElem_enum,
        List.getD_eq_getElem _ _ hi]

/-- Witness for C3 on the 3-card chain `A → B → C`. -/
theorem computeAnchors_spec_witness :
    (computeForwardPath wChainEnv wChainState).Nodup ∧
    2 ≤ (computeForwardPath wChainEnv wChainState).length ∧
    1 < (computeForwardPath wChainEnv wChainState).length ∧
    (computeAnchors wChainEnv wChainState).getD 1 { id := "", angle := 0 }
      = { id := (computeForwardPath wChainEnv wChainState).getD 1 ""
          angle := angleOnArc (getCurrentWheelArc wChainEnv)
            ((1 : ℚ)
              / (((computeForwardPath wChainEnv wChainState).length : ℚ)
                  - 1)) } :=
  ⟨(computeAnchors_spec wChainEnv wChainState).2.2.1,
   by decide, by decide,
   (computeAnchors_spec wChainEnv wChainState).2.2.2.2 1
     (by decide) (by decide)⟩

/-! ## Claim C4 -/

/-- Eligibility unpacked. -/
theorem eligibleOpt_eq_true_iff (env : Env) (visited : List String)
    (opt : TransitionOption) :
    eligibleOpt env visited opt = true ↔
      ∃ u, opt.target_id = some u ∧ u.isEmpty = false ∧
        (deckGet env u).isSome = true ∧ u ∉ visited := by
  cases ht : opt.target_id with
  | none => simp [eligibleOpt, ht]
  | some u => simp [eligibleOpt, ht, and_assoc]

/-- One loop step never decreases the best length. -/
theorem longestBranchStep_mono (env : Env) (visited : List String)
    (acc : Option String × ℤ) (opt : TransitionOption) :
    acc.2 ≤ (longestBranchStep env visited acc opt).2 := by
  unfold longestBranchStep
  by_cases he : eligibleOpt env visited opt
  · rcases ht : opt.target_id with _ | t
    · simp [he, ht]
    · by_cases hlt : acc.2 < (countPathLength env t visited : ℤ)
      · simp only [he, if_true, ht]
        simp [hlt]
        linarith
      · simp [he, ht, hlt]
  · simp [he]

/-- One loop step either keeps the accumulator or installs the current
option's (eligible) target with its exact counted length. -/
theorem longestBranchStep_shape (env : Env) (visited : List String)
    (acc : Option String × ℤ) (opt : TransitionOption) :
    longestBranchStep env visited acc opt = acc ∨
    ∃ t, eligibleOpt env visited opt = true ∧ opt.target_id = some t ∧
      longestBranchStep env visited acc opt
        = (some t, (countPathLength env t visited : ℤ)) := by
  unfold longestBranchStep
  by_cases he : eligibleOpt env visited opt
  · rcases ht : opt.target_id with _ | t
    · left; simp [he, ht]
    · by_cases hlt : acc.2 < (countPathLength env t visited : ℤ)
      · right; exact ⟨t, he, rfl, by simp [he, hlt]⟩
      · left; simp [he, hlt]
  · left; simp [he]

/-- The loop never decreases the best length. -/
theorem longestBranchFold_mono (env : Env) (visited : List String) :
    ∀ (l : List TransitionOption) (acc : Option String × ℤ),
      acc.2 ≤ (l.foldl (longestBranchStep env visited) acc).2 := by
  intro l
  induction l with
  | nil => intro acc; simp
  | cons p ps ih =>
    intro acc
    rw [List.foldl_cons]
    exact le_trans (longestBranchStep_mono env visited acc p) (ih _)

/-- The loop result is either the seed or an eligible option's target
paired with its exact counted length. -/
theorem longestBranchFold_shape (env : Env) (visited : List String) :
    ∀ (l : List TransitionOption) (acc : Option String × ℤ),
      l.foldl (longestBranchStep env visited) acc = acc ∨
      ∃ t, (∃ o ∈ l, eligibleOpt env visited o = true ∧
              o.target_id = some t) ∧
        l.foldl (longestBranchStep env visited) acc
          = (some t, (countPathLength env t visited : ℤ)) := by
  intro l
  induction l with
  | nil => intro acc; left; simp
  | cons p ps ih =>
    intro acc
    rw [List.foldl_cons]
    rcases ih (longestBranchStep env visited acc p) with h |
      ⟨t, ⟨o, ho, he, ht⟩, h⟩
    · rw [h]
      rcases longestBranchStep_shape env visited acc p with h2 |
        ⟨t, he, ht, h2⟩
      · left; exact h2
      · right; exact ⟨t, ⟨p, by simp, he, ht⟩, h2⟩
    · right; exact ⟨t, ⟨o, by simp [ho], he, ht⟩, h⟩

/-- Every eligible option's counted branch length is dominated by the
loop's final best length. -/
theorem longestBranchFold_dominates (env : Env) (visited : List String) :
    ∀ (l : List TransitionOption) (acc : Option String × ℤ)
      (o : TransitionOption) (u : String),
      o ∈ l → eligibleOpt env visited o = true → o.target_id = some u →
      (countPathLength env u visited : ℤ)
        ≤ (l.foldl (longestBranchStep env visited) acc).2 := by
  intro l
  induction l with
  | nil =>
    intro acc o u hmem
    simp at hmem
  | cons p ps ih =>
    intro acc o u hmem he ht
    rw [List.foldl_cons]
    rcases List.mem_cons.1 hmem with rfl | hmem'
    · have hstep : (countPathLength env u visited : ℤ)
          ≤ (longestBranchStep env visited acc o).2 := by
        unfold longestBranchStep
        by_cases hlt : acc.2 < (countPathLength env u visited : ℤ)
        · simp [he, ht, hlt]
        · simp only [he, if_true, ht]
          simp [hlt]
          linarith
      exact le_trans hstep (longestBranchFold_mono env visited ps _)
    · exact ih _ o u hmem' he ht

/-- C4 (amended): at a split card with no committed choice,
`computeForwardPath` follows the branch that is longest according to
`countPathLength` — a counting that walks linear and self-loop rules
but takes branch 0 at *every* split it meets, recorded or not — with
the earliest maximal (and, on ties or no eligible data, option 0's)
target winning; in particular, on a split card with two unrecorded
branches of lengths 2 and 5, the computed path includes the 5-length
branch. -/
theorem longestBranch_selection :
    (∀ (env : Env) (card : Card) (visited : List String)
        (options : List TransitionOption),
      card.transitions = some (.split options) →
      (∃ o ∈ options, eligibleOpt env visited o = true) →
      ∃ t, longestBranchTarget env card visited = some t ∧
        (∃ o ∈ options, eligibleOpt env visited o = true ∧
          o.target_id = some t) ∧
        (∀ o ∈ options, ∀ u : String,
          eligibleOpt env visited o = true → o.target_id = some u →
          countPathLength env u visited
            ≤ countPathLength env t visited)) ∧
    computeForwardPath demo4Env initialState
      = ["S", "B1", "B2", "B3", "B4", "B5"] ∧
    countPathLength demo4Env "A1" ["S"] = 2 ∧
    countPathLength demo4Env "B1" ["S"] = 5 := by
  refine ⟨?_, by decide, by decide, by decide⟩
  rintro env card visited options htr ⟨o₀, ho₀, he₀⟩
  obtain ⟨u₀, ht₀, -, -, -⟩ :=
    (eligibleOpt_eq_true_iff env visited o₀).1 he₀
  rcases longestBranchFold_shape env visited options (none, -1) with h |
    ⟨t, ⟨o, ho, he, ht⟩, h⟩
  · exfalso
    have hdom := longestBranchFold_dominates env visited options
      (none, -1) o₀ u₀ ho₀ he₀ ht₀
    rw [h] at hdom
    have : (0 : ℤ) ≤ (countPathLength env u₀ visited : ℤ) :=
      Int.ofNat_nonneg _
    simp at hdom
    omega
  · refine ⟨t, ?_, ⟨o, ho, he, ht⟩, ?_⟩
    · have hfold : longestBranchFold env visited options
          = (some t, (countPathLength env t visited : ℤ)) := h
      simp [longestBranchTarget, htr, hfold]
    · intro o' ho' u he' ht'
      have hdom := longestBranchFold_dominates env visited options
        (none, -1) o' u ho' he' ht'
      rw [h] at hdom
      simp only [] at hdom
      exact_mod_cast hdom

/-- C4 counterexample: at the unrecorded outer split `O`, counting
"with the same rules" (honoring the committed record at the nested
split `S`) makes the `P` branch the longest (5 > 4), yet the source's
`computeForwardPath` follows the `Q` branch, because its
`countPathLength` takes branch 0 even at the *recorded* split `S`. -/
theorem longestBranch_records_cex :
    (cex4State.decisionRecords.lookup "O") = none ∧
    isSplitDecisionCard (deckGet cex4Env "O") = true ∧
    claimedCountPathLength cex4Env cex4State "P" ["O"] = 5 ∧
    claimedCountPathLength cex4Env cex4State "Q" ["O"] = 4 ∧
    computeForwardPath cex4Env cex4State = ["O", "Q", "Q2", "Q3", "Q4"] ∧
    "P" ∉ computeForwardPath cex4Env cex4State := by
  decide

/-- Witness for C4 (amended) on the demo split with branch lengths 2
and 5. -/
theorem longestBranch_selection_witness :
    (demo4SplitCard.transitions = some (.split demo4Options) ∧
     ∃ o ∈ demo4Options, eligibleOpt demo4Env ["S"] o = true) ∧
    ∃ t, longestBranchTarget demo4Env demo4SplitCard ["S"] = some t ∧
      (∃ o ∈ demo4Options, eligibleOpt demo4Env ["S"] o = true ∧
        o.target_id = some t) ∧
      (∀ o ∈ demo4Options, ∀ u : String,
        eligibleOpt demo4Env ["S"] o = true → o.target_id = some u →
        countPathLength demo4Env u ["S"]
          ≤ countPathLength demo4Env t ["S"]) :=
  ⟨⟨by decide, by decide⟩,
   longestBranch_selection.1 demo4Env demo4SplitCard ["S"] demo4Options
     (by decide) (by decide)⟩

end ResusApp
